import Mathlib

/-!
A shallow embedding of the ONTAP API wrapper (`Ontap.py`): the response-tree
data model (`NaElement`), the `Filer` invocation and decoding helpers, and
the domain objects (`FlexVol`, `Export`, `Share`) as far as the verified
claims need them.  The appliance session is abstracted as a function from
the invocation's argument list to an `InvokeResult`; Python exceptions other
than `OntapApiException` (for example `AttributeError` on a `None` child
lookup) are modelled as an explicit crash outcome.
-/

namespace Ontap

/-- An appliance-reported failure, `OntapApiException(errno, reason)`:
the error code and human-readable reason of a failed invocation. -/
structure DomainFault where
  errno : String
  reason : String
deriving DecidableEq

/-- The response/request tree (`NaElement` of the transport SDK): a node
name, optional scalar content, and an ordered list of child nodes. -/
inductive NaElement where
  | node (nm : String) (content : Option String) (children : List NaElement)

/-- The node's name. -/
def NaElement.nm : NaElement → String
  | .node n _ _ => n

/-- The node's scalar content, if any. -/
def NaElement.content : NaElement → Option String
  | .node _ c _ => c

/-- The node's ordered children. -/
def NaElement.children : NaElement → List NaElement
  | .node _ _ cs => cs

/-- `child_get`: the first child with the given name, or `None`. -/
def NaElement.child_get (e : NaElement) (n : String) : Option NaElement :=
  e.children.find? (fun c => c.nm == n)

/-- `child_get_string`: the content of the first child with the given name;
`none` both when the child is missing and when it has no content, matching
the SDK's `None` in both cases. -/
def NaElement.child_get_string (e : NaElement) (n : String) : Option String :=
  (e.child_get n).bind NaElement.content

/-- Python `str.isspace` on the ASCII whitespace characters (the regex
class `\s` over the appliance's ASCII output). -/
def isPySpace (c : Char) : Bool :=
  c == ' ' || c == '\t' || c == '\n' || c == '\r' ||
    c == '\x0b' || c == '\x0c'

/-- The value of a decimal digit character. -/
def digitVal (c : Char) : Option Nat :=
  if '0' ≤ c ∧ c ≤ '9' then some (c.toNat - '0'.toNat) else none

/-- Read a run of decimal digits left to right onto an accumulator. -/
def digitsToNat : List Char → Nat → Option Nat
  | [], acc => some acc
  | c :: cs, acc =>
    match digitVal c with
    | some d => digitsToNat cs (acc * 10 + d)
    | none => none

/-- Python `int(s)` on a character list: surrounding whitespace allowed,
optional sign, then at least one decimal digit; `none` models the
`ValueError` crash on anything else. -/
def pyIntChars (s : List Char) : Option Int :=
  let t := ((s.dropWhile isPySpace).reverse.dropWhile isPySpace).reverse
  match t with
  | '-' :: ds =>
    if ds = [] then none
    else (digitsToNat ds 0).map (fun n => -(n : Int))
  | '+' :: ds =>
    if ds = [] then none
    else (digitsToNat ds 0).map (fun n => (n : Int))
  | ds =>
    if ds = [] then none
    else (digitsToNat ds 0).map (fun n => (n : Int))

/-- Python `int(s)` on the decimal strings the wrapper feeds it; `none`
also models the `TypeError` crash when the argument is `None`. -/
def pyInt (s : String) : Option Int :=
  pyIntChars s.data

/-- `child_get_int`: `int(child_get_string(...))`; `none` models the crash
when the child is missing or its content is not an integer literal. -/
def NaElement.child_get_int (e : NaElement) (n : String) : Option Int :=
  (e.child_get_string n).bind pyInt

/-- Outcome of one appliance invocation as seen by `Filer.invoke`: either a
response tree, or a failed status carrying error code and reason. -/
inductive InvokeResult where
  | ok (tree : NaElement)
  | failed (errno : String) (reason : String)

/-- The abstracted appliance session: maps the invocation's argument list
(operation name followed by key/value pairs) to its outcome. -/
def Session : Type := List String → InvokeResult

/-- `Filer.invoke`: forwards to the session; a failed result is raised as
`OntapApiException(results_errno, results_reason)`, modelled as `.error`. -/
def Filer.invoke (app : Session) (args : List String) :
    Except DomainFault NaElement :=
  match app args with
  | .ok t => .ok t
  | .failed e r => .error ⟨e, r⟩

/-- `Filer.has_volume`: invoke `volume-list-info` with the volume name;
error code `13040` is absorbed as `False`, any other
`OntapApiException` is re-raised, and a successful invocation yields
`True`. -/
def Filer.has_volume (app : Session) (name : String) :
    Except DomainFault Bool :=
  match Filer.invoke app ["volume-list-info", "volume", name] with
  | .ok _ => .ok true
  | .error f => if f.errno = "13040" then .ok false else .error f

/-- An outcome of a Python method that may return a value, raise an
`OntapApiException`, or crash with an unrelated exception (for example an
`AttributeError` from a child lookup on `None`). -/
inductive PyOutcome (α : Type) where
  | ok (val : α)
  | fault (f : DomainFault)
  | crash
deriving DecidableEq

/-- `FlexVol.get_priority_cache_policy`: invoke `priority-list-info-volume`;
a fault whose reason is exactly `unable to find volume` and whose error
code is `2` is absorbed as the string `default`; any other fault is
re-raised.  On success the policy is read from
`priority-volume / priority-volume.info / cache-policy`; a missing
intermediate node crashes (`AttributeError` on `None`). -/
def FlexVol.get_priority_cache_policy (app : Session) (name : String) :
    PyOutcome (Option String) :=
  match Filer.invoke app ["priority-list-info-volume", "volume", name] with
  | .error f =>
    if f.reason = "unable to find volume" ∧ f.errno = "2" then .ok (some "default")
    else .fault f
  | .ok out =>
    match (out.child_get "priority-volume").bind
        (fun pv => pv.child_get "priority-volume.info") with
    | none => .crash
    | some pv => .ok (pv.child_get_string "cache-policy")

/-- C1: for every volume name, `has_volume(name)` issues the
`volume-list-info` list-by-name invocation and returns `False` (not a
fault) exactly when the appliance answers that invocation with error code
`13040`; any other error code on that operation propagates as the same
`DomainFault`, and a successful invocation yields `True`. -/
theorem C1_has_volume_error_mapping (app : Session) (name : String) :
    (∀ t, app ["volume-list-info", "volume", name] = .ok t →
      Filer.has_volume app name = .ok true) ∧
    (∀ r, app ["volume-list-info", "volume", name] = .failed "13040" r →
      Filer.has_volume app name = .ok false) ∧
    (∀ e r, app ["volume-list-info", "volume", name] = .failed e r →
      e ≠ "13040" →
      Filer.has_volume app name = .error ⟨e, r⟩) := by
  refine ⟨fun t ht => ?_, fun r hr => ?_, fun e r he hne => ?_⟩
  · simp [Filer.has_volume, Filer.invoke, ht]
  · simp [Filer.has_volume, Filer.invoke, hr]
  · simp [Filer.has_volume, Filer.invoke, he, hne]

/-- Witness for C1 at a concrete session answering with error code 13040. -/
theorem C1_has_volume_error_mapping_witness :
    Filer.has_volume (fun _ => .failed "13040" "No volume named vol9") "vol9"
      = .ok false :=
  (C1_has_volume_error_mapping
      (fun _ => .failed "13040" "No volume named vol9") "vol9").2.1
    "No volume named vol9" rfl

/-- C2: when the cache-policy query fails, `get_priority_cache_policy`
returns the `default` policy only when the fault's error code is `2` AND
its reason is exactly `unable to find volume`; a near-miss (only one of
the two matching) propagates the fault unchanged. -/
theorem C2_cache_policy_fault_reclassification (app : Session)
    (name e r : String)
    (hfail : app ["priority-list-info-volume", "volume", name]
      = .failed e r) :
    (e = "2" ∧ r = "unable to find volume" →
      FlexVol.get_priority_cache_policy app name = .ok (some "default")) ∧
    (¬ (e = "2" ∧ r = "unable to find volume") →
      FlexVol.get_priority_cache_policy app name = .fault ⟨e, r⟩) := by
  constructor
  · rintro ⟨he, hr⟩
    simp [FlexVol.get_priority_cache_policy, Filer.invoke, hfail, he, hr]
  · intro h
    have h' : ¬ (r = "unable to find volume" ∧ e = "2") := fun hc =>
      h ⟨hc.2, hc.1⟩
    simp [FlexVol.get_priority_cache_policy, Filer.invoke, hfail, h']

/-- Witness for C2 at a concrete session reporting the exact
(code, reason) pair. -/
theorem C2_cache_policy_fault_reclassification_witness :
    FlexVol.get_priority_cache_policy
      (fun _ => .failed "2" "unable to find volume") "vol9"
      = .ok (some "default") :=
  (C2_cache_policy_fault_reclassification
      (fun _ => .failed "2" "unable to find volume") "vol9"
      "2" "unable to find volume" rfl).1 ⟨rfl, rfl⟩

/-- `Export._get_rules` applied to a successful response tree: returns the
`rules / exports-rule-info` node.  A missing `rules` child raises
`AttributeError` on `None`, caught and returned as `False`; a present
`rules` child with no `exports-rule-info` returns `None`.  Both falsy
results behave identically in every caller, so both are modelled as
`none`. -/
def Export.get_rules (out : NaElement) : Option NaElement :=
  (out.child_get "rules").bind (fun r => r.child_get "exports-rule-info")

/-- Result of `Export.get_nosuid`: the Python method returns `True`,
`False`, or the empty string. -/
inductive NosuidResult where
  | b (v : Bool)
  | emptyStr
deriving DecidableEq

/-- `Export.get_nosuid` applied to the fetched rule node (`none` models the
falsy result of `_get_rules`): the empty string when no rule exists;
otherwise `True` exactly when the rule has a `nosuid` child whose content
is `true`, and `False` when the child is absent or has any other value. -/
def Export.get_nosuid (rules : Option NaElement) : NosuidResult :=
  match rules with
  | none => .emptyStr
  | some r =>
    match r.child_get "nosuid" with
    | none => .b false
    | some _ => .b (r.child_get_string "nosuid" = some "true")

/-- `Filer._xmltree_to_list` on an actual tree: if the outer child exists,
collect the non-`None` inner scalar values of its children, else return
the empty list. -/
def Filer.xmltree_to_list (nae : NaElement) (outer inner : String) :
    List String :=
  match nae.child_get outer with
  | none => []
  | some o => o.children.filterMap (fun item => item.child_get_string inner)

/-- `Filer._xmltree_to_list` as called with the raw result of `_get_rules`:
the falsy absence marker (`none`) has no `child_get` method, so the lookup
crashes (`AttributeError`), modelled as `none`. -/
def Filer.xmltree_to_list_py (nae : Option NaElement) (outer inner : String) :
    Option (List String) :=
  match nae with
  | none => none
  | some n => some (Filer.xmltree_to_list n outer inner)

/-- `Export.get_ro_hosts`: guards the fetched rule node before decoding, and
returns the empty list when the rule is absent. -/
def Export.get_ro_hosts (rules : Option NaElement) : Option (List String) :=
  match rules with
  | some r => Filer.xmltree_to_list_py (some r) "read-only" "name"
  | none => some []

/-- `Export.get_rw_hosts`: passes the fetched rule value to the list-decode
helper without guarding it. -/
def Export.get_rw_hosts (rules : Option NaElement) : Option (List String) :=
  Filer.xmltree_to_list_py rules "read-write" "name"

/-- `Export.get_root_hosts`: passes the fetched rule value to the
list-decode helper without guarding it. -/
def Export.get_root_hosts (rules : Option NaElement) : Option (List String) :=
  Filer.xmltree_to_list_py rules "root" "name"

/-- C8: `get_nosuid` returns the empty-string sentinel (distinct from the
boolean `False`) when no rule exists for the path, and a boolean when a
rule exists — `True` exactly when the rule's `nosuid` field decodes to
`true`, `False` when the field is absent or holds any other value. -/
theorem C8_get_nosuid_sentinel :
    Export.get_nosuid none = .emptyStr ∧
    (∀ b, NosuidResult.b b ≠ NosuidResult.emptyStr) ∧
    ∀ r : NaElement, ∃ v : Bool, Export.get_nosuid (some r) = .b v ∧
      (v = true ↔ r.child_get_string "nosuid" = some "true") := by
  refine ⟨rfl, fun b h => NosuidResult.noConfusion h, fun r => ?_⟩
  unfold Export.get_nosuid
  cases hc : r.child_get "nosuid" with
  | none =>
    refine ⟨false, by simp [hc], ?_⟩
    simp [NaElement.child_get_string, hc]
  | some c =>
    by_cases hs : r.child_get_string "nosuid" = some "true"
    · exact ⟨true, by simp [hc, hs], by simp [hs]⟩
    · exact ⟨false, by simp [hc, hs], by simp [hs]⟩

/-- C10: on a missing rule (`_get_rules` yielding the falsy absence
marker), `get_ro_hosts` returns the empty list, while `get_rw_hosts` and
`get_root_hosts` hand the marker to the list-decode helper, whose child
lookup on a non-tree value yields no result — they fail where
`get_ro_hosts` succeeds; on an actual rule node all three decode a
list. -/
theorem C10_rw_root_hosts_crash_on_missing_rule :
    Export.get_ro_hosts none = some [] ∧
    Export.get_rw_hosts none = none ∧
    Export.get_root_hosts none = none ∧
    ∀ r : NaElement,
      Export.get_rw_hosts (some r)
          = some (Filer.xmltree_to_list r "read-write" "name") ∧
      Export.get_root_hosts (some r)
          = some (Filer.xmltree_to_list r "root" "name") ∧
      Export.get_ro_hosts (some r)
          = some (Filer.xmltree_to_list r "read-only" "name") :=
  ⟨rfl, rfl, rfl, fun _ => ⟨rfl, rfl, rfl⟩⟩

/-- Does the list begin with the given prefix?  (Anchored matching of a
literal pattern, as `re.match` does.) -/
def listStartsWith : List Char → List Char → Bool
  | [], _ => true
  | _ :: _, [] => false
  | p :: ps, c :: cs => p == c && listStartsWith ps cs

/-- Membership of a character in a list. -/
def listContains : List Char → Char → Bool
  | [], _ => false
  | c :: cs, a => c == a || listContains cs a

/-- Does the list end with a newline character? -/
def endsWithNL : List Char → Bool
  | [] => false
  | [c] => c == '\n'
  | _ :: c :: cs => endsWithNL (c :: cs)

/-- The characters of the `/vol/` mount prefix. -/
def volPrefix : List Char := ['/', 'v', 'o', 'l', '/']

/-- The `(.+)$` part of the constructor's pattern: `$` also accepts a single
final newline, `.` matches anything but a newline, and `+` needs at least
one character. -/
def volGroup (rest : List Char) : Option (List Char) :=
  let s := if endsWithNL rest then rest.dropLast else rest
  if s.isEmpty || listContains s '\n' then none else some s

/-- `re.match('^/vol/(.+)$', name)` from `FlexVol.__init__`, on names as
character lists: anchored at the start, the name must begin with `/vol/`
and the rest is captured by `(.+)$`. -/
def volMatch (nm : List Char) : Option (List Char) :=
  if listStartsWith volPrefix nm then volGroup (nm.drop 5) else none

/-- The identity fields a `FlexVol` stores at construction. -/
structure FlexVolId where
  name : List Char
  path : List Char
deriving DecidableEq

/-- `FlexVol.__init__`: strip one leading `/vol/` via the regex (keeping the
captured group when it matches), then store the name and the derived path
`'/vol/' + name`. -/
def FlexVol.init (nm : List Char) : FlexVolId :=
  let name := match volMatch nm with
    | some g => g
    | none => nm
  ⟨name, volPrefix ++ name⟩

/-- A list with no newline does not end with one. -/
theorem endsWithNL_false {l : List Char} (h : listContains l '\n' = false) :
    endsWithNL l = false := by
  induction l with
  | nil => rfl
  | cons c cs ih =>
    simp only [listContains, Bool.or_eq_false_iff] at h
    cases cs with
    | nil => simpa [endsWithNL] using h.1
    | cons d ds =>
      simpa [endsWithNL] using ih h.2

/-- C5 counterexample: for the volume name n = `/vol/x`, constructing from
`/vol/` ++ n and from n yields different `name` fields (the prefix is
stripped only once), and the name constructed from `/vol/` ++ n still
begins with the `/vol/` prefix. -/
theorem C5_flexvol_name_counterexample :
    FlexVol.init (volPrefix ++ ("/vol/x").data) ≠ FlexVol.init ("/vol/x").data ∧
    listStartsWith volPrefix
      (FlexVol.init (volPrefix ++ ("/vol/x").data)).name = true := by
  decide

/-- C5 (amended): for every volume name n that is non-empty, contains no
newline, and does not itself begin with `/vol/`, constructing a FlexVol
from `/vol/` ++ n and from n yields identical fields, the name equals n
(so it never begins with the `/vol/` prefix), and the path equals
`/vol/` ++ n. -/
theorem C5_flexvol_name_amended (n : List Char)
    (h1 : n ≠ []) (h2 : listContains n '\n' = false)
    (h3 : listStartsWith volPrefix n = false) :
    FlexVol.init (volPrefix ++ n) = FlexVol.init n ∧
    (FlexVol.init n).name = n ∧
    (FlexVol.init n).path = volPrefix ++ n ∧
    listStartsWith volPrefix (FlexVol.init n).name = false := by
  have hnl : endsWithNL n = false := endsWithNL_false h2
  have hgroup : volGroup n = some n := by
    obtain ⟨c, cs, rfl⟩ := List.exists_cons_of_ne_nil h1
    simp [volGroup, hnl, h2]
  have hpre : listStartsWith volPrefix (volPrefix ++ n) = true := by
    simp [volPrefix, listStartsWith]
  have hdrop : (volPrefix ++ n).drop 5 = n := rfl
  have hm1 : volMatch (volPrefix ++ n) = some n := by
    simp [volMatch, hpre, hdrop, hgroup]
  have hm2 : volMatch n = none := by
    simp [volMatch, h3]
  refine ⟨?_, ?_, ?_, ?_⟩ <;> simp [FlexVol.init, hm1, hm2, h3]

/-- Witness for the amended C5 at the concrete name `w`. -/
theorem C5_flexvol_name_amended_witness :
    FlexVol.init (volPrefix ++ ['w']) = FlexVol.init ['w'] ∧
    (FlexVol.init ['w']).name = ['w'] ∧
    (FlexVol.init ['w']).path = volPrefix ++ ['w'] ∧
    listStartsWith volPrefix (FlexVol.init ['w']).name = false :=
  C5_flexvol_name_amended ['w'] (by decide) (by decide) (by decide)

/-- Python `str.splitlines` restricted to the `\n` boundary (the only line
boundary occurring in the appliance's CLI output): split on newlines, with
no trailing empty line for a trailing newline. -/
def splitlinesNL : List Char → List (List Char)
  | [] => []
  | c :: cs =>
    if c = '\n' then [] :: splitlinesNL cs
    else
      match splitlinesNL cs with
      | [] => [[c]]
      | l :: ls => (c :: l) :: ls

/-- Python `'\n'.join`. -/
def joinNL : List (List Char) → List Char
  | [] => []
  | [l] => l
  | l :: l2 :: ls => l ++ '\n' :: joinNL (l2 :: ls)

/-- The literal appliance message tested by `Share.configured`:
`re.match` against `^No share is matching that name\.` is a prefix test
for this text. -/
def noShareMsg : List Char := ("No share is matching that name.").data

/-- `Share._get_cifs_share`: invoke `cifs shares <name>` through the CLI
passthrough (the session is abstracted as the text content of the
response's cli-output node) and return the output lines with the first
two header lines stripped, re-joined with newlines. -/
def Share.get_cifs_share (cli : List String → List Char) (name : String) :
    List Char :=
  joinNL ((splitlinesNL (cli ["cifs", "shares", name])).drop 2)

/-- `Share.configured`: `True` unless the header-stripped detail output
begins with the literal no-share-matching message.  The method is total on
the CLI output: absence is never signalled by an exception or an error
code. -/
def Share.configured (cli : List String → List Char) (name : String) : Bool :=
  !(listStartsWith noShareMsg (Share.get_cifs_share cli name))

/-- A newline-free pattern matches at the head of `l ++ '\n' :: r` exactly
when it matches at the head of `l`. -/
theorem startsWith_append_newline {msg : List Char} (l r : List Char)
    (h : listContains msg '\n' = false) :
    listStartsWith msg (l ++ '\n' :: r) = listStartsWith msg l := by
  induction msg generalizing l with
  | nil => rfl
  | cons m ms ih =>
    simp only [listContains, Bool.or_eq_false_iff] at h
    cases l with
    | nil => simp [listStartsWith, h.1]
    | cons c cs => simp [listStartsWith, ih cs h.2]

/-- A nonempty newline-free pattern is a prefix of `joinNL L` exactly when
it is a prefix of the first line of `L`. -/
theorem startsWith_joinNL {msg : List Char} (hne : msg ≠ [])
    (h : listContains msg '\n' = false) (L : List (List Char)) :
    listStartsWith msg (joinNL L) = true ↔
      ∃ l ls, L = l :: ls ∧ listStartsWith msg l = true := by
  cases L with
  | nil =>
    obtain ⟨m, ms, rfl⟩ := List.exists_cons_of_ne_nil hne
    simp [joinNL, listStartsWith]
  | cons l ls =>
    cases ls with
    | nil => simp [joinNL]
    | cons l2 ls2 =>
      rw [show joinNL (l :: l2 :: ls2) = l ++ '\n' :: joinNL (l2 :: ls2)
        from rfl]
      rw [startsWith_append_newline l (joinNL (l2 :: ls2)) h]
      simp

/-- C7: for every share name and CLI transcript, `configured()` issues the
`cifs shares <name>` detail command, strips the two header lines, and
returns `False` exactly when the first remaining output line begins with
the appliance's literal no-share-matching message; otherwise (including
when no lines remain) it returns `True`. -/
theorem C7_share_configured_message_shape (cli : List String → List Char)
    (name : String) :
    Share.configured cli name = false ↔
      ∃ l ls, (splitlinesNL (cli ["cifs", "shares", name])).drop 2 = l :: ls ∧
        listStartsWith noShareMsg l = true := by
  have hne : noShareMsg ≠ [] := by decide
  have hnl : listContains noShareMsg '\n' = false := by decide
  have hb : ∀ b : Bool, ((!b) = false) ↔ b = true := by decide
  unfold Share.configured
  rw [hb]
  exact startsWith_joinNL hne hnl _

/-- `FlexVol.get_autosize_increment_gb` given the decoded increment-size in
kilobytes: `str(int(round(kb / 1024. / 1024.))) + 'g'`.  For the
nonnegative sizes the appliance reports, the two float divisions by 1024
are exact (for |kb| < 2^53 the value kb/2^20 is an exactly representable
dyadic rational) and Python's round-half-away-from-zero agrees with
round-half-up, so the computation is modelled exactly over the
rationals. -/
def FlexVol.get_autosize_increment_gb (kb : ℤ) : String :=
  toString (round ((kb : ℚ) / 1024 / 1024)) ++ "g"

/-- C9: `get_autosize_increment_gb` returns `1g` when the increment-size
decodes to 1048576 KB and `0g` when it decodes to 0; in general, for a
nonnegative KB count it returns some whole gigabyte count `g` with a
trailing `g`, where `g` is nearest in the sense that `g` gigabytes differ
from the raw KB count by at most half a gigabyte (524288 KB). -/
theorem C9_autosize_increment_gb (kb : ℤ) (hkb : 0 ≤ kb) :
    FlexVol.get_autosize_increment_gb 1048576 = "1g" ∧
    FlexVol.get_autosize_increment_gb 0 = "0g" ∧
    ∃ g : ℤ, FlexVol.get_autosize_increment_gb kb = toString g ++ "g" ∧
      |kb - g * 1048576| ≤ 524288 := by
  have h1 : ((kb : ℚ) / 1024 / 1024) = (kb : ℚ) / 1048576 := by ring
  have hone : round ((1048576 : ℚ) / 1024 / 1024) = 1 := by
    norm_num [round_eq]
  have hzero : round ((0 : ℚ) / 1024 / 1024) = 0 := by
    norm_num [round_eq]
  refine ⟨?_, ?_, round ((kb : ℚ) / 1024 / 1024), rfl, ?_⟩
  · simp only [FlexVol.get_autosize_increment_gb, Int.cast_ofNat]
    rw [hone]
    rfl
  · simp only [FlexVol.get_autosize_increment_gb, Int.cast_zero]
    rw [hzero]
    rfl
  rw [h1]
  set g : ℤ := round ((kb : ℚ) / 1048576) with hg
  have h2 : |(kb : ℚ) / 1048576 - g| ≤ 1 / 2 := abs_sub_round _
  have h3 : |(kb : ℚ) - g * 1048576| ≤ 524288 := by
    have hmul := mul_le_mul_of_nonneg_left h2
      (by norm_num : (0 : ℚ) ≤ 1048576)
    have hab : (kb : ℚ) - g * 1048576
        = 1048576 * ((kb : ℚ) / 1048576 - g) := by
      ring
    calc |(kb : ℚ) - g * 1048576|
        = |(1048576 : ℚ)| * |(kb : ℚ) / 1048576 - g| := by
          rw [hab, abs_mul]
      _ = 1048576 * |(kb : ℚ) / 1048576 - g| := by
          rw [abs_of_pos (show (0 : ℚ) < 1048576 by norm_num)]
      _ ≤ 1048576 * (1 / 2) := hmul
      _ = 524288 := by norm_num
  exact_mod_cast h3

/-- Witness for C9 at the concrete increment-size 3145728 KB. -/
theorem C9_autosize_increment_gb_witness :
    FlexVol.get_autosize_increment_gb 1048576 = "1g" ∧
    FlexVol.get_autosize_increment_gb 0 = "0g" ∧
    ∃ g : ℤ, FlexVol.get_autosize_increment_gb 3145728 = toString g ++ "g" ∧
      |3145728 - g * 1048576| ≤ 524288 :=
  C9_autosize_increment_gb 3145728 (by decide)

/-- A Python value held in a decoded options dict: an int, a string, or
Python `None`. -/
inductive PyVal where
  | vint (i : Int)
  | vstr (s : String)
  | vnone
deriving DecidableEq

/-- Python dict assignment `d[k] = v` on an insertion-ordered dict:
overwrite in place when the key exists, append otherwise. -/
def dictInsert (d : List (String × PyVal)) (k : String) (v : PyVal) :
    List (String × PyVal) :=
  if d.any (fun p => p.1 == k) then
    d.map (fun p => if p.1 == k then (k, v) else p)
  else d ++ [(k, v)]

/-- Contiguous-substring containment on character lists. -/
def listIsSubstr (n : List Char) : List Char → Bool
  | [] => listStartsWith n []
  | c :: cs => listStartsWith n (c :: cs) || listIsSubstr n cs

/-- Python `needle in haystack` on strings: contiguous-substring
containment, true for an empty needle. -/
def pyStrIn (needle hay : String) : Bool :=
  listIsSubstr needle.data hay.data

/-- `Filer._xmltree_to_dict`: walk the children of the response's `options`
child; for each, read the name field, coerce the value field with `int()`
when the membership test on the caller's `int_values` accepts the name,
and store the (possibly `None`) string value otherwise.  The outer `none`
models the crashes: a missing `options` child (`children_get` on `None`),
a missing name field (`in` applied to `None`), or `int()` of a
non-integer value. -/
def Filer.xmltree_to_dict (out : NaElement) (isIntName : String → Bool)
    (key value : String) : Option (List (String × PyVal)) := do
  let opts ← out.child_get "options"
  opts.children.foldlM (fun d opt => do
    let nm ← opt.child_get_string key
    if isIntName nm then
      let v ← opt.child_get_int value
      pure (dictInsert d nm (.vint v))
    else
      match opt.child_get_string value with
      | some s => pure (dictInsert d nm (.vstr s))
      | none => pure (dictInsert d nm .vnone)) []

/-- `FlexVol.get_snap_autodelete` applied to the listing response tree.
In the source, `int_values = ('target_free_space')` is a parenthesised
plain string — not a one-element tuple — so the membership test
`name in int_values` is Python substring containment on that string. -/
def FlexVol.get_snap_autodelete (out : NaElement) :
    Option (List (String × PyVal)) :=
  Filer.xmltree_to_dict out (fun nm => pyStrIn nm "target_free_space")
    "option-name" "option-value"

/-- Modelled from the spec (the appliance is the external collaborator):
the state behind `snapshot-autodelete-set-option` is a per-volume option
table, and setting records the value string under the option name. -/
def applianceSetOption (store : List (String × String)) (nm v : String) :
    List (String × String) :=
  if store.any (fun p => p.1 == nm) then
    store.map (fun p => if p.1 == nm then (nm, v) else p)
  else store ++ [(nm, v)]

/-- Modelled from the spec (the appliance is the external collaborator):
the `snapshot-autodelete-list-info` response encodes the option table as
named option nodes, each with an `option-name` and an `option-value`
child. -/
def snapAutodeleteResponse (store : List (String × String)) : NaElement :=
  .node "results" none
    [.node "options" none (store.map (fun p =>
      .node "snapshot-autodelete-option-info" none
        [.node "option-name" (some p.1) [],
         .node "option-value" (some p.2) []]))]

/-- C3, evaluated at the failing input: setting option `space` — not a
declared integer option — to `42` and listing yields the integer 42, not
the string `42`, because the membership test is substring containment on
the string `target_free_space`.  For comparison, `state` ↦ `on` stays a
string and `target_free_space` ↦ `20` is coerced to an integer as the
comment in the source intends. -/
theorem C3_snap_autodelete_substring_coercion :
    FlexVol.get_snap_autodelete
        (snapAutodeleteResponse (applianceSetOption [] "space" "42"))
      = some [("space", .vint 42)] ∧
    FlexVol.get_snap_autodelete
        (snapAutodeleteResponse (applianceSetOption [] "state" "on"))
      = some [("state", .vstr "on")] ∧
    FlexVol.get_snap_autodelete
        (snapAutodeleteResponse
          (applianceSetOption [] "target_free_space" "20"))
      = some [("target_free_space", .vint 20)] := by
  refine ⟨?_, ?_, ?_⟩ <;> decide

/-- The host-list element built by `create_rule` / `modify_rule`: one
`exports-hostname-info` child per host, each holding a `name` node. -/
def Export.hostListElem (ename : String) (hosts : List String) : NaElement :=
  .node ename none (hosts.map (fun h =>
    .node "exports-hostname-info" none [.node "name" (some h) []]))

/-- The `exports-rule-info` node shared by `create_rule` and `modify_rule`:
nosuid encoded as `true`/`false`, the export's pathname, then one child
per non-empty host list, in the dict's insertion order
root / read-only / read-write. -/
def Export.ruleInfo (path : String) (nosuid : Bool)
    (root_hosts ro_hosts rw_hosts : List String) : NaElement :=
  .node "exports-rule-info" none
    ([.node "nosuid" (some (if nosuid then "true" else "false")) [],
      .node "pathname" (some path) []]
      ++ (if root_hosts.isEmpty then []
          else [Export.hostListElem "root" root_hosts])
      ++ (if ro_hosts.isEmpty then []
          else [Export.hostListElem "read-only" ro_hosts])
      ++ (if rw_hosts.isEmpty then []
          else [Export.hostListElem "read-write" rw_hosts]))

/-- `Export.create_rule`: the request tree handed to `invoke_elem` —
`nfs-exportfs-append-rules` holding `persistent true` and a `rules` node
wrapping the rule info.  The `sec_flavor` parameter (default `sys`) is
accepted by the method's signature. -/
def Export.create_rule (path : String) (nosuid : Bool)
    (root_hosts ro_hosts rw_hosts : List String) (sec_flavor : String) :
    NaElement :=
  .node "nfs-exportfs-append-rules" none
    [.node "persistent" (some "true") [],
     .node "rules" none
       [Export.ruleInfo path nosuid root_hosts ro_hosts rw_hosts]]

/-- `Export.modify_rule`: the request tree handed to `invoke_elem` —
`nfs-exportfs-modify-rule` holding `persistent true` and a `rule` node
wrapping the rule info.  The `sec_flavor` parameter (default `sys`) is
accepted by the method's signature. -/
def Export.modify_rule (path : String) (nosuid : Bool)
    (root_hosts ro_hosts rw_hosts : List String) (sec_flavor : String) :
    NaElement :=
  .node "nfs-exportfs-modify-rule" none
    [.node "persistent" (some "true") [],
     .node "rule" none
       [Export.ruleInfo path nosuid root_hosts ro_hosts rw_hosts]]

/-- The names read back from a host-list element are exactly the supplied
hosts, in order. -/
theorem hostListElem_names (e : String) (hs : List String) :
    (Export.hostListElem e hs).children.map
      (fun c => c.child_get_string "name") = hs.map some := by
  induction hs with
  | nil => rfl
  | cons h t ih =>
    rw [show (Export.hostListElem e (h :: t)).children.map
          (fun c => c.child_get_string "name")
        = (NaElement.node "exports-hostname-info" none
            [NaElement.node "name" (some h) []]).child_get_string "name"
          :: (Export.hostListElem e t).children.map
            (fun c => c.child_get_string "name") from rfl, ih]
    rfl

/-- C4 counterexample: at a concrete call with security flavor `krb5`, the
built request trees are identical to those built with the default flavor
`sys`, and the rule info has no `sec-flavor` child — the supplied
security-flavor string is not encoded in the tree, contrary to the
claim. -/
theorem C4_sec_flavor_not_encoded :
    Export.create_rule "/vol/v1" true ["adm"] ["ro1"] ["rw1"] "krb5"
      = Export.create_rule "/vol/v1" true ["adm"] ["ro1"] ["rw1"] "sys" ∧
    Export.modify_rule "/vol/v1" true ["adm"] ["ro1"] ["rw1"] "krb5"
      = Export.modify_rule "/vol/v1" true ["adm"] ["ro1"] ["rw1"] "sys" ∧
    (Export.ruleInfo "/vol/v1" true ["adm"] ["ro1"] ["rw1"]).child_get
      "sec-flavor" = none :=
  ⟨rfl, rfl, rfl⟩

/-- C4 (amended): for every call, the request tree encodes the supplied
nosuid flag (as `true`/`false`, default true), the export's path, and one
child per non-empty host list (root / read-only / read-write, each
defaulting to empty) containing one hostname node per host; create sends
the append-rules operation and modify the modify-rule operation (append
vs. replace is the appliance's semantics of those two operations); the
security-flavor parameter (default `sys`) is accepted but not encoded in
the tree. -/
theorem C4_rule_request_tree_amended (path : String) (nosuid : Bool)
    (root_hosts ro_hosts rw_hosts : List String) (sec_flavor : String) :
    (Export.create_rule path nosuid root_hosts ro_hosts rw_hosts
      sec_flavor).nm = "nfs-exportfs-append-rules" ∧
    (Export.modify_rule path nosuid root_hosts ro_hosts rw_hosts
      sec_flavor).nm = "nfs-exportfs-modify-rule" ∧
    (Export.create_rule path nosuid root_hosts ro_hosts rw_hosts
      sec_flavor).child_get_string "persistent" = some "true" ∧
    (Export.modify_rule path nosuid root_hosts ro_hosts rw_hosts
      sec_flavor).child_get_string "persistent" = some "true" ∧
    (Export.create_rule path nosuid root_hosts ro_hosts rw_hosts
      sec_flavor).child_get "rules"
      = some (.node "rules" none
          [Export.ruleInfo path nosuid root_hosts ro_hosts rw_hosts]) ∧
    (Export.modify_rule path nosuid root_hosts ro_hosts rw_hosts
      sec_flavor).child_get "rule"
      = some (.node "rule" none
          [Export.ruleInfo path nosuid root_hosts ro_hosts rw_hosts]) ∧
    (Export.ruleInfo path nosuid root_hosts ro_hosts
      rw_hosts).child_get_string "nosuid"
      = some (if nosuid then "true" else "false") ∧
    (Export.ruleInfo path nosuid root_hosts ro_hosts
      rw_hosts).child_get_string "pathname" = some path ∧
    (Export.ruleInfo path nosuid root_hosts ro_hosts rw_hosts).child_get
      "root" = (if root_hosts.isEmpty then none
        else some (Export.hostListElem "root" root_hosts)) ∧
    (Export.ruleInfo path nosuid root_hosts ro_hosts rw_hosts).child_get
      "read-only" = (if ro_hosts.isEmpty then none
        else some (Export.hostListElem "read-only" ro_hosts)) ∧
    (Export.ruleInfo path nosuid root_hosts ro_hosts rw_hosts).child_get
      "read-write" = (if rw_hosts.isEmpty then none
        else some (Export.hostListElem "read-write" rw_hosts)) ∧
    (∀ e hs, (Export.hostListElem e hs).children.map
      (fun c => c.child_get_string "name") = hs.map some) ∧
    Export.create_rule path nosuid root_hosts ro_hosts rw_hosts sec_flavor
      = Export.create_rule path nosuid root_hosts ro_hosts rw_hosts "sys" ∧
    Export.modify_rule path nosuid root_hosts ro_hosts rw_hosts sec_flavor
      = Export.modify_rule path nosuid root_hosts ro_hosts rw_hosts "sys" := by
  refine ⟨rfl, rfl, rfl, rfl, rfl, rfl, rfl, rfl, ?_, ?_, ?_,
    hostListElem_names, rfl, rfl⟩ <;>
  · rcases root_hosts with _ | ⟨a, as⟩ <;>
      rcases ro_hosts with _ | ⟨b, bs⟩ <;>
      rcases rw_hosts with _ | ⟨c, cs⟩ <;> rfl

/-- The `[a-zA-Z]` class at the head of the share pattern. -/
def isAsciiLetter (c : Char) : Bool :=
  ('a' ≤ c && c ≤ 'z') || ('A' ≤ c && c ≤ 'Z')

/-- Does the list begin with zero or more whitespace characters followed by
a slash? -/
def wsThenSlash : List Char → Bool
  | [] => false
  | c :: rest => c == '/' || (isPySpace c && wsThenSlash rest)

/-- The `\s+\/` tail of the share pattern: one or more whitespace
characters followed by a slash, at the head of the list. -/
def tailWsSlash : List Char → Bool
  | [] => false
  | c :: rest => isPySpace c && wsThenSlash rest

/-- Does some suffix of the list consist of a whitespace run followed by a
slash? -/
def suffixWsSlash : List Char → Bool
  | [] => false
  | c :: rest => (isPySpace c && wsThenSlash rest) || suffixWsSlash rest

/-- The rightmost viable end of the `.*\S` group body: the longest prefix
of `l` that ends at a non-whitespace character followed by `\s+\/`.
Greedy `.*` with backtracking selects exactly the rightmost such
position. -/
def findName (l : List Char) : Option (List Char) :=
  match l with
  | [] => none
  | c :: rest =>
    match findName rest with
    | some g => some (c :: g)
    | none => if !isPySpace c && tailWsSlash rest then some [c] else none

/-- One line matched against `^([a-zA-Z].*\S)\s+\/` as `re.match` does: the
leading character must be an ASCII letter and the captured group extends
greedily to the rightmost non-whitespace character that is followed by
whitespace and a slash.  Returns the captured group. -/
def shareMatch (line : List Char) : Option (List Char) :=
  match line with
  | [] => none
  | c :: rest =>
    if isAsciiLetter c then (findName rest).map (fun g => c :: g) else none

/-- `Filer.get_shares`: split the `cifs shares` CLI output (the session is
abstracted as the text content of the response's cli-output node) into
lines, skip the two header lines, and collect the captured share name of
every matching line; a non-matching line produces no handle. -/
def Filer.get_shares (cliOutput : List Char) : List (List Char) :=
  ((splitlinesNL cliOutput).drop 2).filterMap shareMatch

/-- The claim's reading of the share pattern — "a leading non-whitespace
share name followed by whitespace and a '/'-prefixed mount point": the
line starts with a non-whitespace character and, somewhere after it, a
whitespace run is followed by a slash. -/
def claimedShareLine (line : List Char) : Bool :=
  match line with
  | [] => false
  | c :: rest => !isPySpace c && suffixWsSlash rest

/-- A concrete `cifs shares` transcript: two header lines (which would both
match the share pattern if they were not skipped), the claim's sample
share line, and a non-matching line. -/
def demoShareOutput : List Char :=
  ("Skip1        /vol/decoy1\nSkip2        /vol/decoy2\nbackup        /vol/backup/share1   some comment\n1nomatch        /vol/x").data

/-- A `getLast?` result survives consing at the front. -/
theorem getLast?_cons_some {g : List Char} {d : Char} (c : Char)
    (h : g.getLast? = some d) : (c :: g).getLast? = some d := by
  cases g with
  | nil => simp at h
  | cons x xs => rw [List.getLast?_cons_cons]; exact h

/-- Soundness of the group search: a captured group body is a nonempty
prefix ending in a non-whitespace character and followed by `\s+\/`. -/
theorem findName_sound : ∀ {l g : List Char}, findName l = some g →
    ∃ t, l = g ++ t ∧ g ≠ [] ∧
      (∃ d, g.getLast? = some d ∧ isPySpace d = false) ∧
      tailWsSlash t = true := by
  intro l
  induction l with
  | nil => intro g h; simp [findName] at h
  | cons c rest ih =>
    intro g h
    unfold findName at h
    cases hf : findName rest with
    | some gr =>
      simp only [hf] at h
      obtain rfl := Option.some.inj h
      obtain ⟨t, hrest, hne, ⟨d, hd, hdw⟩, htail⟩ := ih hf
      exact ⟨t, by simp [hrest], by simp,
        ⟨d, getLast?_cons_some c hd, hdw⟩, htail⟩
    | none =>
      simp only [hf] at h
      split at h
      next hcond =>
        obtain rfl := Option.some.inj h
        have hparts := (Bool.and_eq_true _ _).mp hcond
        refine ⟨rest, rfl, by simp, ⟨c, rfl, ?_⟩, hparts.2⟩
        simpa using hparts.1
      next => exact absurd h (by simp)

/-- Splitting off one newline-free line. -/
theorem splitlinesNL_append {l : List Char} (rest : List Char)
    (h : listContains l '\n' = false) :
    splitlinesNL (l ++ '\n' :: rest) = l :: splitlinesNL rest := by
  induction l with
  | nil => rfl
  | cons c cs ih =>
    simp only [listContains, Bool.or_eq_false_iff] at h
    have hc : ¬ (c = '\n') := by simpa using h.1
    rw [show (c :: cs) ++ '\n' :: rest = c :: (cs ++ '\n' :: rest) from rfl]
    rw [show splitlinesNL (c :: (cs ++ '\n' :: rest))
        = (if c = '\n' then [] :: splitlinesNL (cs ++ '\n' :: rest)
           else match splitlinesNL (cs ++ '\n' :: rest) with
             | [] => [[c]]
             | l :: ls => (c :: l) :: ls) from rfl]
    rw [if_neg hc, ih h.2]

/-- C6 counterexample: the line `1backup        /vol/x` satisfies the
claim's description of the pattern (leading non-whitespace name,
whitespace, then a '/'-prefixed mount point) but the code's regex
requires a leading ASCII letter, so the line matches nothing and
`get_shares` yields no handle for it. -/
theorem C6_share_regex_counterexample :
    claimedShareLine (("1backup        /vol/x").data) = true ∧
    shareMatch (("1backup        /vol/x").data) = none ∧
    Filer.get_shares
      (("Name   Mount\n----   ----\n1backup        /vol/x").data) = [] := by
  decide

/-- C6 (amended): `get_shares` skips the first two lines of the CLI
listing and matches each remaining line against
`^([a-zA-Z].*\S)\s+\/` — a share name that begins with an ASCII letter,
has at least two characters, ends in a non-whitespace character and is
followed by whitespace and a slash.  On the sample transcript the line
`backup        /vol/backup/share1   some comment` yields the handle name
`backup`; a non-matching line is skipped without error and produces no
handle. -/
theorem C6_get_shares_amended :
    Filer.get_shares demoShareOutput = [("backup").data] ∧
    (∀ line name, shareMatch line = some name →
      ∃ c g t, name = c :: g ∧ g ≠ [] ∧ line = name ++ t ∧
        isAsciiLetter c = true ∧
        (∃ d, name.getLast? = some d ∧ isPySpace d = false) ∧
        tailWsSlash t = true) ∧
    (∀ pre post line, shareMatch line = none →
      (pre ++ line :: post).filterMap shareMatch
        = (pre ++ post).filterMap shareMatch) ∧
    (∀ l1 l2 body, listContains l1 '\n' = false →
      listContains l2 '\n' = false →
      Filer.get_shares (l1 ++ ('\n' :: (l2 ++ ('\n' :: body))))
        = (splitlinesNL body).filterMap shareMatch) := by
  refine ⟨by decide, ?_, ?_, ?_⟩
  · intro line name h
    cases line with
    | nil => simp [shareMatch] at h
    | cons c rest =>
      simp only [shareMatch] at h
      split at h
      next hl =>
        cases hf : findName rest with
        | none => rw [hf] at h; exact absurd h (by simp)
        | some g =>
          rw [hf] at h
          obtain rfl := Option.some.inj h
          obtain ⟨t, hrest, hne, ⟨d, hd, hdw⟩, htail⟩ := findName_sound hf
          exact ⟨c, g, t, rfl, hne, by simp [hrest], hl,
            ⟨d, getLast?_cons_some c hd, hdw⟩, htail⟩
      next => exact absurd h (by simp)
  · intro pre post line h
    simp [List.filterMap_append, List.filterMap_cons, h]
  · intro l1 l2 body h1 h2
    unfold Filer.get_shares
    rw [splitlinesNL_append _ h1, splitlinesNL_append _ h2]
    rfl

/-- Witness for the amended C6: the header-skip part applied to a concrete
transcript whose first header line even contains a slash. -/
theorem C6_get_shares_amended_witness :
    Filer.get_shares (("Name   /Mount").data ++ ('\n' :: (("----").data
        ++ ('\n' :: ("web   /vol/web").data))))
      = (splitlinesNL (("web   /vol/web").data)).filterMap shareMatch :=
  C6_get_shares_amended.2.2.2 (("Name   /Mount").data) (("----").data)
    (("web   /vol/web").data) (by decide) (by decide)

end Ontap
